import Mathlib

/-!
Verification of the creature-evolution optimisation engine.

The repository ships two files of code: `src/app.rs` (the `UIData` driver) and
`tests/integration.rs`.  The optimisation core itself (`population.rs`,
`creature.rs`, `optimisationmethods/*.rs`) is not part of the sources at hand,
so those definitions are modelled from the specification, faithful to its
words; each such definition carries a doc comment starting with
`Modelled from the spec:`.  Definitions embedding `src/app.rs` follow that
file line by line.

Numeric conventions of the embedding: fitness scores (f32 in the code) are
modelled as `Int`, genomes as `List Int`; the simulated-annealing temperature
(a float schedule) is modelled as `ℚ`.  The external physics trial that
produces a fitness score is modelled as a function parameter
`eval : List Int → Option Int` (`none` = the trial diverged / evaluation
failed).  The seeded random generator `rand::StdRng` is modelled as a seed
plus a draw counter with a deterministic mixing function.
-/

/-- Modelled from the spec: the error kinds of section 7
(`InvalidConfiguration`, `EvaluationFailure`, defensive `InvariantViolation`). -/
inductive SimulationError where
  | InvalidConfiguration : SimulationError
  | EvaluationFailure : SimulationError
  | InvariantViolation : SimulationError
deriving DecidableEq, Inhabited

/-- Modelled from the spec: the process-scoped seeded random generator
(`rand::StdRng`), represented as the seed plus the number of draws made. -/
structure StdRng where
  seed : Nat
  counter : Nat
deriving DecidableEq, Inhabited

/-- Modelled from the spec: one raw draw of the generator; a deterministic
mix of seed and counter, reduced modulo 2^32. -/
def StdRng.nextNat (r : StdRng) : Nat × StdRng :=
  (((r.seed + r.counter) * 2654435761 + 40503) % 4294967296,
   ⟨r.seed, r.counter + 1⟩)

/-- Embeds rand's `gen_range(lo, hi)` as used at src/app.rs:191: a draw in
`[lo, hi)` (for `lo < hi`), advancing the generator. -/
def StdRng.gen_range (r : StdRng) (lo hi : Nat) : Nat × StdRng :=
  let (v, r') := r.nextNat
  (lo + v % (hi - lo), r')

/-- Modelled from the spec: a Creature is a genome plus a fitness score
(defined only after an evaluation pass, tracked by `scored`) and transient
simulation state (`position`), reset by `reset_position`. -/
structure Creature where
  genome : List Int
  fitness : Int
  scored : Bool
  position : Int
deriving DecidableEq, Inhabited

/-- Embeds `Creature::reset_position` (called from src/app.rs:200): returns
the transient simulation state to the canonical start. -/
def Creature.reset_position (c : Creature) : Creature :=
  { c with position := 0 }

/-- Modelled from the spec: an ordered sequence of Creatures representing
one round of the population. -/
structure Generation where
  creatures : List Creature
deriving DecidableEq, Inhabited

/-- Modelled from the spec: the accumulating ordered list of Generations and
the monotonically increasing counter `gen` (generations completed). -/
structure Population where
  generations : List Generation
  gen : Nat
deriving DecidableEq, Inhabited

/-- The most recent generation of a population (generation `gen`). -/
def Population.currentGeneration (p : Population) : Generation :=
  p.generations.getLastD ⟨[]⟩

/-- Commit one successful generation transition: the current (last)
generation is replaced by its fully evaluated version, the new generation is
appended, and `gen` is incremented. -/
def Population.commit (p : Population) (evaluated newGen : Generation) : Population :=
  ⟨p.generations.dropLast ++ [evaluated, newGen], p.gen + 1⟩

/-- Fitness of creature `i` of generation `k` in a population's history
(0 outside bounds). -/
def fitnessAt (p : Population) (k i : Nat) : Int :=
  (((p.generations.getD k ⟨[]⟩).creatures.getD i default).fitness)

/-- Modelled from the spec: the external fitness-evaluation capability —
given a genome, produce a scalar fitness after a physics trial; may fail. -/
abbrev EvalFn := List Int → Option Int

/-- Modelled from the spec: ensure one creature has a fitness score, invoking
the external trial if it is not already scored; a failed trial surfaces as
`EvaluationFailure`. -/
def evalCreature (eval : EvalFn) (c : Creature) : Except SimulationError Creature :=
  if c.scored then .ok c
  else
    match eval c.genome with
    | none => .error .EvaluationFailure
    | some f => .ok { c with fitness := f, scored := true }

/-- Score every creature of a list in order, failing on the first failed
trial. -/
def evalCreatures (eval : EvalFn) : List Creature → Except SimulationError (List Creature)
  | [] => .ok []
  | c :: cs => do
    let c' ← evalCreature eval c
    let cs' ← evalCreatures eval cs
    .ok (c' :: cs')

/-- Modelled from the spec: step (1) of every strategy — ensure every
creature of the current generation has a fitness score. -/
def evaluateGeneration (eval : EvalFn) (g : Generation) : Except SimulationError Generation := do
  let cs ← evalCreatures eval g.creatures
  .ok ⟨cs⟩

/-- Modelled from the spec: perturb a genome — a small randomized
perturbation (an offset in `[-10, 10]`) of every gene. -/
def perturbGenome : List Int → StdRng → List Int × StdRng
  | [], r => ([], r)
  | g :: gs, r =>
    let (d, r1) := r.nextNat
    let (rest, r2) := perturbGenome gs r1
    ((g + ((d % 21 : Nat) : Int) - 10) :: rest, r2)

/-- Modelled from the spec (section 4.4): the hill-climbing transition for a
list of (already scored) parents — perturb each parent's genome, evaluate the
candidate through the external trial, and keep the candidate only if its
fitness is strictly greater than the parent's, otherwise carry the parent
forward unchanged (fitness retained). -/
def hcChildren (eval : EvalFn) : List Creature → StdRng → Except SimulationError (List Creature × StdRng)
  | [], r => .ok ([], r)
  | p :: ps, r =>
    let (g', r1) := perturbGenome p.genome r
    match eval g' with
    | none => .error .EvaluationFailure
    | some f =>
      let keep := if p.fitness < f then Creature.mk g' f true 0 else p
      do
        let (rest, r2) ← hcChildren eval ps r1
        .ok (keep :: rest, r2)

/-- Modelled from the spec: HillClimbing owns its Population. -/
structure HillClimbing where
  population : Population
deriving DecidableEq, Inhabited

/-- Modelled from the spec (sections 4.2 and 4.4): one hill-climbing
generation transition — score the current generation, run the per-creature
local search, defensively check size conservation, then commit the evaluated
current generation plus the new generation and increment `gen`.  Any failure
leaves the visible history untouched (the state is only rebuilt on success). -/
def HillClimbing.generation_single (eval : EvalFn) (hc : HillClimbing) (r : StdRng) :
    Except SimulationError (HillClimbing × StdRng) := do
  let evaluated ← evaluateGeneration eval hc.population.currentGeneration
  let (children, r') ← hcChildren eval evaluated.creatures r
  if children.length = evaluated.creatures.length then
    .ok (⟨hc.population.commit evaluated ⟨children⟩⟩, r')
  else .error .InvariantViolation

/-- Modelled from the spec (section 4.3, selection): tournament selection of
size two, biased toward higher fitness; equal fitness is broken by a uniform
coin flip. -/
def tournamentPick (cs : List Creature) (r : StdRng) : Creature × StdRng :=
  let (i, r1) := r.gen_range 0 cs.length
  let (j, r2) := r1.gen_range 0 cs.length
  let a := cs.getD i default
  let b := cs.getD j default
  if b.fitness < a.fitness then (a, r2)
  else if a.fitness < b.fitness then (b, r2)
  else
    let (t, r3) := r2.nextNat
    (if t % 2 = 0 then a else b, r3)

/-- Modelled from the spec (section 4.3, crossover): one-point crossover at a
randomly drawn cut, total for any two genomes. -/
def crossoverGenomes (g1 g2 : List Int) (r : StdRng) : List Int × StdRng :=
  let (cut, r1) := r.gen_range 0 (g1.length + 1)
  (g1.take cut ++ g2.drop cut, r1)

/-- Modelled from the spec (section 4.3, mutation): perturb each gene of a
child genome independently with a fixed 1-in-10 per-gene probability. -/
def mutateGenome : List Int → StdRng → List Int × StdRng
  | [], r => ([], r)
  | g :: gs, r =>
    let (p, r1) := r.nextNat
    let (g', r2) :=
      if p % 10 = 0 then
        let (d, r2) := r1.nextNat
        (g + ((d % 21 : Nat) : Int) - 10, r2)
      else (g, r1)
    let (rest, r3) := mutateGenome gs r2
    (g' :: rest, r3)

/-- Modelled from the spec (section 4.3): produce `n` children from a scored
parent generation — repeatedly select two parents, cross them over, mutate
the child; children start unscored. -/
def gaChildren (cs : List Creature) : Nat → StdRng → List Creature × StdRng
  | 0, r => ([], r)
  | n+1, r =>
    let (p1, r1) := tournamentPick cs r
    let (p2, r2) := tournamentPick cs r1
    let (childG, r3) := crossoverGenomes p1.genome p2.genome r2
    let (childG', r4) := mutateGenome childG r3
    let (rest, r5) := gaChildren cs n r4
    (Creature.mk childG' 0 false 0 :: rest, r5)

/-- Modelled from the spec: GeneticAlgorithm owns its Population. -/
structure GeneticAlgorithm where
  population : Population
deriving DecidableEq, Inhabited

/-- Modelled from the spec (sections 4.2 and 4.3): one genetic-algorithm
generation transition — score the current generation, breed exactly as many
children as the current generation holds, defensively check size
conservation, commit and increment `gen`. -/
def GeneticAlgorithm.generation_single (eval : EvalFn) (ga : GeneticAlgorithm) (r : StdRng) :
    Except SimulationError (GeneticAlgorithm × StdRng) := do
  let evaluated ← evaluateGeneration eval ga.population.currentGeneration
  let (children, r') := gaChildren evaluated.creatures evaluated.creatures.length r
  if children.length = evaluated.creatures.length then
    .ok (⟨ga.population.commit evaluated ⟨children⟩⟩, r')
  else .error .InvariantViolation

/-- Modelled from the spec (section 4.5): the starting temperature of the
cooling schedule. -/
def tempInit : ℚ := 100

/-- Modelled from the spec (section 4.5): the constant geometric decay factor
per generation. -/
def tempDecay : ℚ := 9/10

/-- Modelled from the spec (section 4.5): the small positive floor the
temperature is clamped to, so it never reaches zero. -/
def tempFloor : ℚ := 1/1000

/-- Modelled from the spec (section 4.5): the per-generation temperature — a
fixed geometric cooling schedule in `gen`, clamped to the positive floor. -/
def saTemperature (gen : Nat) : ℚ :=
  max tempFloor (tempInit * tempDecay ^ gen)

/-- Modelled from the spec (section 4.5): the Metropolis acceptance
probability `exp(delta / temperature)` for `delta < 0`; since `exp` is not
rational, the model uses the rational surrogate `1 / (1 - x)`, which like
`exp` on nonpositive arguments maps 0 to 1, is increasing, and tends to 0. -/
def metropolisSurrogate (delta : Int) (t : ℚ) : ℚ :=
  1 / (1 - (delta : ℚ) / t)

/-- Modelled from the spec (section 4.5): accept a worse candidate when a
uniform draw `u` over `[0, 2^32)` lands below the acceptance probability. -/
def saAccept (delta : Int) (gen : Nat) (u : Nat) : Bool :=
  decide (((u % 4294967296 : Nat) : ℚ) / 4294967296 < metropolisSurrogate delta (saTemperature gen))

/-- Modelled from the spec (section 4.5): the simulated-annealing transition
for a list of (already scored) parents at generation counter `gen` — perturb,
evaluate, accept unconditionally if the fitness delta is nonnegative, else
accept with the Metropolis probability, else keep the parent. -/
def saChildren (eval : EvalFn) (gen : Nat) : List Creature → StdRng → Except SimulationError (List Creature × StdRng)
  | [], r => .ok ([], r)
  | p :: ps, r =>
    let (g', r1) := perturbGenome p.genome r
    match eval g' with
    | none => .error .EvaluationFailure
    | some f =>
      let cand := Creature.mk g' f true 0
      let delta := f - p.fitness
      let (keep, r2) :=
        if 0 ≤ delta then (cand, r1)
        else
          let (u, r2) := r1.nextNat
          (if saAccept delta gen u then cand else p, r2)
      do
        let (rest, r3) ← saChildren eval gen ps r2
        .ok (keep :: rest, r3)

/-- Modelled from the spec: SimulatedAnnealing owns its Population; its
temperature is the fixed schedule read at the population's `gen` counter. -/
structure SimulatedAnnealing where
  population : Population
deriving DecidableEq, Inhabited

/-- Modelled from the spec (sections 4.2 and 4.5): one simulated-annealing
generation transition. -/
def SimulatedAnnealing.generation_single (eval : EvalFn) (sa : SimulatedAnnealing) (r : StdRng) :
    Except SimulationError (SimulatedAnnealing × StdRng) := do
  let evaluated ← evaluateGeneration eval sa.population.currentGeneration
  let (children, r') ← saChildren eval sa.population.gen evaluated.creatures r
  if children.length = evaluated.creatures.length then
    .ok (⟨sa.population.commit evaluated ⟨children⟩⟩, r')
  else .error .InvariantViolation

/-- Modelled from the spec: the number of genes of a randomized genome. -/
def genomeLength : Nat := 4

/-- Modelled from the spec: an independently randomized genome for a
generation-0 creature. -/
def randomGenome : Nat → StdRng → List Int × StdRng
  | 0, r => ([], r)
  | n+1, r =>
    let (d, r1) := r.nextNat
    let (rest, r2) := randomGenome n r1
    ((((d % 201 : Nat) : Int) - 100) :: rest, r2)

/-- Modelled from the spec: build `n` creatures with independently randomized
genomes; fresh creatures are unscored. -/
def newCreatures : Nat → StdRng → List Creature × StdRng
  | 0, r => ([], r)
  | n+1, r =>
    let (g, r1) := randomGenome genomeLength r
    let (rest, r2) := newCreatures n r1
    (Creature.mk g 0 false 0 :: rest, r2)

/-- Modelled from the spec (section 4.1): `Population::new(size, rng)` —
builds `size` randomized creatures wrapped as generation 0 with `gen = 0`;
fails with `InvalidConfiguration` if and only if `size = 0`.
(`population.rs` is not among the sources; note that src/app.rs:155 uses the
returned value directly, so the real constructor may not surface a failure.) -/
def Population.new (size : Nat) (r : StdRng) : Except SimulationError (Population × StdRng) :=
  if size = 0 then .error .InvalidConfiguration
  else
    let (cs, r') := newCreatures size r
    .ok (⟨[⟨cs⟩], 0⟩, r')

/-- Modelled from the spec (section 9): the closed set of strategy variants
behind the shared `OptimisationMethod` contract, as a tagged union. -/
inductive OptMethod where
  | ga : GeneticAlgorithm → OptMethod
  | hc : HillClimbing → OptMethod
  | sa : SimulatedAnnealing → OptMethod
deriving DecidableEq, Inhabited

/-- Embeds the `get_data` accessor of the `OptimisationMethod` contract. -/
def OptMethod.get_data : OptMethod → Population
  | .ga g => g.population
  | .hc h => h.population
  | .sa s => s.population

/-- Modelled from the spec (section 4.2): the shared one-generation
transition, dispatched on the active strategy variant. -/
def OptMethod.generation_single (eval : EvalFn) : OptMethod → StdRng → Except SimulationError (OptMethod × StdRng)
  | .ga g, r => (GeneticAlgorithm.generation_single eval g r).map (fun p => (.ga p.1, p.2))
  | .hc h, r => (HillClimbing.generation_single eval h r).map (fun p => (.hc p.1, p.2))
  | .sa s, r => (SimulatedAnnealing.generation_single eval s r).map (fun p => (.sa p.1, p.2))

/-- The `&mut self` view of `generation_single`, as the caller in
src/app.rs:172-181 sees it: on success the strategy state and generator are
replaced, on failure the strategy is left in its last-good state. -/
def OptMethod.generation_single_mut (eval : EvalFn) (m : OptMethod) (r : StdRng) :
    Option SimulationError × OptMethod × StdRng :=
  match m.generation_single eval r with
  | .ok (m', r') => (none, m', r')
  | .error e => (some e, m, r)

/-- `n` consecutive successful advances of one strategy instance (`none` as
soon as any call fails), mirroring the tick loop of
tests/integration.rs:30-37. -/
def OptMethod.advanceN (eval : EvalFn) : Nat → OptMethod → StdRng → Option (OptMethod × StdRng)
  | 0, m, r => some (m, r)
  | n+1, m, r =>
    match m.generation_single eval r with
    | .error _ => none
    | .ok (m', r') => OptMethod.advanceN eval n m' r'

/-- `n` consecutive successful hill-climbing advances. -/
def hcAdvanceN (eval : EvalFn) : Nat → HillClimbing → StdRng → Option (HillClimbing × StdRng)
  | 0, hc, r => some (hc, r)
  | n+1, hc, r =>
    match hc.generation_single eval r with
    | .error _ => none
    | .ok (hc', r') => hcAdvanceN eval n hc' r'

/-- Replace the element at one index of a list, leaving the list unchanged
outside bounds. -/
def modifyAt {α : Type} (f : α → α) : Nat → List α → List α
  | _, [] => []
  | 0, c :: cs => f c :: cs
  | n+1, c :: cs => c :: modifyAt f n cs

/-- The `get_data_mut` view of the `OptimisationMethod` contract: apply an
in-place update to the strategy's population. -/
def OptMethod.modifyData (f : Population → Population) : OptMethod → OptMethod
  | .ga g => .ga ⟨f g.population⟩
  | .hc h => .hc ⟨f h.population⟩
  | .sa s => .sa ⟨f s.population⟩

/-- Embeds the creature update of src/app.rs:200: reset the transient
position of creature `i` of generation `g` in the history. -/
def Population.resetCreature (p : Population) (g i : Nat) : Population :=
  { p with generations :=
      modifyAt (fun gn => ⟨modifyAt Creature.reset_position i gn.creatures⟩) g p.generations }

/-- Embeds `GUIState` as used by src/app.rs (the `Menu` and `Generations`
pages; `gui.rs` itself is excluded rendering code). -/
inductive GUIState where
  | Menu : GUIState
  | Generations : GUIState
deriving DecidableEq, Inhabited

/-- Embeds the `Modal` payload as constructed at src/app.rs:94-99. -/
structure Modal where
  title : String
  message : String
  button_a_label : String
  button_b_label : String
deriving DecidableEq, Inhabited

/-- Embeds the `UIData` state struct of src/app.rs:15-53. -/
structure UIData where
  mouse_x : ℚ
  mouse_y : ℚ
  mouse_left_down : Bool
  mouse_right_down : Bool
  width : Nat
  height : Nat
  fps : Nat
  title : String
  gui_state : GUIState
  rng : StdRng
  generation_size : Nat
  use_genetic_algorithm : Bool
  use_simulated_annealing : Bool
  use_hill_climbing : Bool
  total_generations : Nat
  spectate_method : Nat
  spectate_generation : Nat
  spectate_creature : Nat
  draw_simulation : Bool
  simulation_frame : Nat
  current_fitness : Int
  optmethods : List OptMethod
  modal_visible : Bool
  modal_struct : Option Modal

/-- Embeds `UIData::modal_new` (src/app.rs:87-101): store a modal with
defaulted button labels and make it visible. -/
def UIData.modal_new (u : UIData) (title message : String) (btn_a_label btn_b_label : Option String) : UIData :=
  { u with
    modal_struct := some ⟨title, message, btn_a_label.getD ("Okay"), btn_b_label.getD ("Close")⟩,
    modal_visible := true }

/-- Embeds `UIData::modal_close` (src/app.rs:103-106). -/
def UIData.modal_close (u : UIData) : UIData :=
  { u with modal_visible := false, modal_struct := none }

/-- Embeds `UIData::reset_simulation` (src/app.rs:197-203): reset the
spectated creature's transient position in every strategy's history and
rewind the simulation frame. -/
def UIData.reset_simulation (u : UIData) : UIData :=
  { u with
    optmethods := u.optmethods.map
      (OptMethod.modifyData (fun p => p.resetCreature u.spectate_generation u.spectate_creature)),
    simulation_frame := 0 }

/-- Embeds `UIData::set_creature` (src/app.rs:183-188). -/
def UIData.set_creature (u : UIData) (method index generation : Nat) : UIData :=
  let u1 := u.reset_simulation
  let data := (u1.optmethods.getD method (.hc ⟨⟨[], 0⟩⟩)).get_data
  { u1 with
    spectate_creature := index,
    current_fitness := ((data.generations.getD generation ⟨[]⟩).creatures.getD index default).fitness }

/-- Embeds `UIData::set_creature_random` (src/app.rs:190-195): draw a
creature index uniformly from `[0, generation_size)` and spectate it. -/
def UIData.set_creature_random (u : UIData) : UIData :=
  let (index, r') := u.rng.gen_range 0 u.generation_size
  UIData.set_creature { u with rng := r' } u.spectate_method index u.spectate_generation

/-- Embeds `UIData::init_tests` (src/app.rs:149-170): with no strategy
selected, only show an error modal; otherwise build one Population and hand a
clone to every selected strategy, switch to the Generations page and spectate
a random creature.  (The source uses the constructed Population directly; the
error branch of the modelled constructor is mapped to the identity.) -/
def UIData.init_tests (u : UIData) : UIData :=
  if !u.use_genetic_algorithm && !u.use_hill_climbing && !u.use_simulated_annealing then
    u.modal_new ("Error") ("Please select at least one optimisation method") none none
  else
    match Population.new u.generation_size u.rng with
    | .error _ => u
    | .ok (population, r') =>
      let u1 := { u with rng := r' }
      let u2 := if u1.use_genetic_algorithm then
          { u1 with optmethods := u1.optmethods ++ [.ga ⟨population⟩] } else u1
      let u3 := if u2.use_hill_climbing then
          { u2 with optmethods := u2.optmethods ++ [.hc ⟨population⟩] } else u2
      let u4 := if u3.use_simulated_annealing then
          { u3 with optmethods := u3.optmethods ++ [.sa ⟨population⟩] } else u3
      let u5 := { u4 with gui_state := GUIState.Generations }
      let u6 := u5.set_creature_random
      { u6 with draw_simulation := false }

/-- Advance every strategy once in order, threading the shared generator,
ignoring per-strategy failures, as the loop of src/app.rs:173-175 does. -/
def stepMethods (eval : EvalFn) : List OptMethod → StdRng → List OptMethod × StdRng
  | [], r => ([], r)
  | m :: ms, r =>
    let (_, m', r1) := OptMethod.generation_single_mut eval m r
    let (ms', r2) := stepMethods eval ms r1
    (m' :: ms', r2)

/-- Embeds `UIData::generation_single` (src/app.rs:172-181): advance every
strategy one generation (result ignored), then advance the spectated
generation and the total count and rewind the simulation frame. -/
def UIData.generation_single (eval : EvalFn) (u : UIData) : UIData :=
  let (ms, r') := stepMethods eval u.optmethods u.rng
  { u with
    optmethods := ms,
    rng := r',
    spectate_generation := u.spectate_generation + 1,
    total_generations := u.total_generations + 1,
    simulation_frame := 0 }

/-- Embeds `UIData::reset_optmethods` (src/app.rs:205-212). -/
def UIData.reset_optmethods (u : UIData) : UIData :=
  { u with
    optmethods := [],
    total_generations := 0,
    spectate_generation := 0,
    spectate_creature := 0,
    draw_simulation := false,
    simulation_frame := 0 }

/-- `n` ticks of the caller's loop: advance one generation per tick. -/
def UIData.advanceN (eval : EvalFn) : Nat → UIData → UIData
  | 0, u => u
  | n+1, u => UIData.advanceN eval n (u.generation_single eval)

/-- The full fitness history of a run: for every strategy, for every
generation, the fitness of each creature in order. -/
def UIData.fitnessHistory (u : UIData) : List (List (List Int)) :=
  u.optmethods.map (fun m => m.get_data.generations.map (fun g => g.creatures.map Creature.fitness))

instance {ε α : Type} [DecidableEq ε] [DecidableEq α] : DecidableEq (Except ε α) := fun a b =>
  match a, b with
  | .ok x, .ok y => if h : x = y then isTrue (by rw [h]) else isFalse (by simp [h])
  | .error x, .error y => if h : x = y then isTrue (by rw [h]) else isFalse (by simp [h])
  | .ok _, .error _ => isFalse (by simp)
  | .error _, .ok _ => isFalse (by simp)

theorem getD_append_left {α : Type} (l1 l2 : List α) (k : Nat) (d : α) (h : k < l1.length) :
    (l1 ++ l2).getD k d = l1.getD k d := by
  simp [List.getD, List.getElem?_append, h]

theorem getD_append_right {α : Type} (l1 l2 : List α) (k : Nat) (d : α) (h : l1.length ≤ k) :
    (l1 ++ l2).getD k d = l2.getD (k - l1.length) d := by
  simp [List.getD, List.getElem?_append_right h]

theorem dropLast_append_getLastD {α : Type} :
    ∀ (l : List α), l ≠ [] → ∀ d : α, l.dropLast ++ [l.getLastD d] = l := by
  intro l
  induction l with
  | nil => intro h; exact absurd rfl h
  | cons a t ih =>
    intro _ d
    cases t with
    | nil => simp [List.getLastD]
    | cons b t2 =>
      have hrec := ih (by simp) a
      simp only [List.dropLast, List.getLastD] at hrec ⊢
      simpa using hrec

theorem getLastD_append_pair {α : Type} (l : List α) (a b d : α) :
    (l ++ [a, b]).getLastD d = b := by
  have : l ++ [a, b] = (l ++ [a]) ++ [b] := by simp
  rw [this, List.getLastD_concat]

theorem mem_of_getLastD {α : Type} (l : List α) (d : α) (h : l ≠ []) : l.getLastD d ∈ l := by
  conv => rw [← dropLast_append_getLastD l h d]
  simp

theorem evalCreature_ok (eval : EvalFn) (c c' : Creature)
    (h : evalCreature eval c = .ok c') :
    c'.fitness = (if c.scored then c.fitness else (eval c.genome).getD 0) ∧
    c'.scored = true ∨ c' = c ∧ c.scored = true := by
  unfold evalCreature at h
  by_cases hs : c.scored
  · simp [hs] at h; exact Or.inr ⟨h.symm, hs⟩
  · simp [hs] at h
    cases he : eval c.genome with
    | none => simp [he] at h
    | some f => simp [he] at h; left; constructor <;> simp [← h, hs, he]

theorem evalCreature_scored (eval : EvalFn) (c c' : Creature)
    (h : evalCreature eval c = .ok c') : c'.scored = true := by
  rcases evalCreature_ok eval c c' h with ⟨_, h2⟩ | ⟨h1, h2⟩
  · exact h2
  · rw [h1]; exact h2

theorem evalCreature_of_scored (eval : EvalFn) (c : Creature) (h : c.scored = true) :
    evalCreature eval c = .ok c := by
  simp [evalCreature, h]

theorem evalCreatures_length (eval : EvalFn) :
    ∀ (cs cs' : List Creature), evalCreatures eval cs = .ok cs' → cs'.length = cs.length := by
  intro cs
  induction cs with
  | nil => intro cs' h; simp [evalCreatures] at h; simp [← h]
  | cons c t ih =>
    intro cs' h
    simp only [evalCreatures, bind, Except.bind] at h
    cases h1 : evalCreature eval c with
    | error e => rw [h1] at h; simp at h
    | ok c' =>
      rw [h1] at h
      cases h2 : evalCreatures eval t with
      | error e => rw [h2] at h; simp at h
      | ok t' =>
        rw [h2] at h
        simp at h
        rw [← h]
        simp [ih t' h2]

theorem evalCreatures_scored (eval : EvalFn) :
    ∀ (cs cs' : List Creature), evalCreatures eval cs = .ok cs' →
      ∀ c ∈ cs', c.scored = true := by
  intro cs
  induction cs with
  | nil => intro cs' h; simp [evalCreatures] at h; subst h; simp
  | cons c t ih =>
    intro cs' h
    simp only [evalCreatures, bind, Except.bind] at h
    cases h1 : evalCreature eval c with
    | error e => rw [h1] at h; simp at h
    | ok c' =>
      rw [h1] at h
      cases h2 : evalCreatures eval t with
      | error e => rw [h2] at h; simp at h
      | ok t' =>
        rw [h2] at h
        simp at h
        intro x hx
        rw [← h] at hx
        rcases List.mem_cons.mp hx with hx | hx
        · rw [hx]; exact evalCreature_scored eval c c' h1
        · exact ih t' h2 x hx

theorem evalCreatures_of_scored (eval : EvalFn) :
    ∀ (cs : List Creature), (∀ c ∈ cs, c.scored = true) →
      evalCreatures eval cs = .ok cs := by
  intro cs
  induction cs with
  | nil => intro _; simp [evalCreatures]
  | cons c t ih =>
    intro h
    have hc := h c (by simp)
    have ht := ih (fun x hx => h x (by simp [hx]))
    simp only [evalCreatures, bind, Except.bind, evalCreature_of_scored eval c hc, ht]

theorem evaluateGeneration_length (eval : EvalFn) (g g' : Generation)
    (h : evaluateGeneration eval g = .ok g') : g'.creatures.length = g.creatures.length := by
  simp only [evaluateGeneration, bind, Except.bind] at h
  cases h1 : evalCreatures eval g.creatures with
  | error e => rw [h1] at h; simp at h
  | ok cs => rw [h1] at h; simp at h; rw [← h]; exact evalCreatures_length eval _ _ h1

theorem evaluateGeneration_scored (eval : EvalFn) (g g' : Generation)
    (h : evaluateGeneration eval g = .ok g') : ∀ c ∈ g'.creatures, c.scored = true := by
  simp only [evaluateGeneration, bind, Except.bind] at h
  cases h1 : evalCreatures eval g.creatures with
  | error e => rw [h1] at h; simp at h
  | ok cs => rw [h1] at h; simp at h; rw [← h]; exact evalCreatures_scored eval _ _ h1

theorem evaluateGeneration_of_scored (eval : EvalFn) (g : Generation)
    (h : ∀ c ∈ g.creatures, c.scored = true) : evaluateGeneration eval g = .ok g := by
  simp only [evaluateGeneration, bind, Except.bind, evalCreatures_of_scored eval g.creatures h]

theorem hcChildren_ok (eval : EvalFn) :
    ∀ (cs : List Creature) (r : StdRng) (out : List Creature) (r' : StdRng),
      hcChildren eval cs r = .ok (out, r') →
      out.length = cs.length ∧
      (∀ i, (cs.getD i default).fitness ≤ (out.getD i default).fitness) ∧
      ((∀ c ∈ cs, c.scored = true) → ∀ c ∈ out, c.scored = true) := by
  intro cs
  induction cs with
  | nil =>
    intro r out r' h
    simp [hcChildren] at h
    obtain ⟨h1, _⟩ := h
    subst h1
    refine ⟨by simp, fun i => le_refl _, by simp⟩
  | cons p ps ih =>
    intro r out r' h
    simp only [hcChildren] at h
    cases hp : perturbGenome p.genome r with
    | mk g' r1 =>
      rw [hp] at h
      cases he : eval g' with
      | none => rw [he] at h; simp at h
      | some f =>
        rw [he] at h
        simp only [bind, Except.bind] at h
        cases hrec : hcChildren eval ps r1 with
        | error e => rw [hrec] at h; simp at h
        | ok pr =>
          rw [hrec] at h
          simp at h
          obtain ⟨hrest, hfit, hsc⟩ := ih r1 pr.1 pr.2 (by rw [hrec])
          obtain ⟨hout, _⟩ := h
          constructor
          · rw [← hout]; simp [hrest]
          constructor
          · intro i
            cases i with
            | zero =>
              rw [← hout]
              by_cases hlt : p.fitness < f
              · simp [List.getD, hlt]; exact le_of_lt hlt
              · simp [List.getD, hlt]
            | succ j =>
              rw [← hout]
              simpa [List.getD] using hfit j
          · intro hall c hc
            rw [← hout] at hc
            rcases List.mem_cons.mp hc with hc | hc
            · rw [hc]
              by_cases hlt : p.fitness < f
              · simp [hlt]
              · simp [hlt]; exact hall p (by simp)
            · exact hsc (fun x hx => hall x (by simp [hx])) c hc

theorem hc_generation_single_ok (eval : EvalFn) (hc hc' : HillClimbing) (r r' : StdRng)
    (h : hc.generation_single eval r = .ok (hc', r')) :
    ∃ evaluated children,
      evaluateGeneration eval hc.population.currentGeneration = .ok evaluated ∧
      hcChildren eval evaluated.creatures r = .ok (children, r') ∧
      children.length = evaluated.creatures.length ∧
      hc'.population = hc.population.commit evaluated ⟨children⟩ := by
  simp only [HillClimbing.generation_single, bind, Except.bind] at h
  cases h1 : evaluateGeneration eval hc.population.currentGeneration with
  | error e => rw [h1] at h; simp at h
  | ok ev =>
    rw [h1] at h
    simp only [] at h
    cases h2 : hcChildren eval ev.creatures r with
    | error e => rw [h2] at h; simp at h
    | ok pr =>
      obtain ⟨ch, r2⟩ := pr
      rw [h2] at h
      simp only [] at h
      by_cases hlen : ch.length = ev.creatures.length
      · rw [if_pos hlen] at h
        simp at h
        obtain ⟨hhc, hr⟩ := h
        exact ⟨ev, ch, rfl, by rw [h2, hr], hlen, by rw [← hhc]⟩
      · rw [if_neg hlen] at h
        simp at h

theorem ga_generation_single_ok (eval : EvalFn) (ga ga' : GeneticAlgorithm) (r r' : StdRng)
    (h : ga.generation_single eval r = .ok (ga', r')) :
    ∃ evaluated children,
      evaluateGeneration eval ga.population.currentGeneration = .ok evaluated ∧
      children.length = evaluated.creatures.length ∧
      ga'.population = ga.population.commit evaluated ⟨children⟩ := by
  simp only [GeneticAlgorithm.generation_single, bind, Except.bind] at h
  cases h1 : evaluateGeneration eval ga.population.currentGeneration with
  | error e => rw [h1] at h; simp at h
  | ok ev =>
    rw [h1] at h
    simp only [] at h
    cases h2 : gaChildren ev.creatures ev.creatures.length r with
    | mk ch r2 =>
      rw [h2] at h
      simp only [] at h
      by_cases hlen : ch.length = ev.creatures.length
      · rw [if_pos hlen] at h
        simp at h
        obtain ⟨hga, _⟩ := h
        exact ⟨ev, ch, rfl, hlen, by rw [← hga]⟩
      · rw [if_neg hlen] at h
        simp at h

theorem sa_generation_single_ok (eval : EvalFn) (sa sa' : SimulatedAnnealing) (r r' : StdRng)
    (h : sa.generation_single eval r = .ok (sa', r')) :
    ∃ evaluated children,
      evaluateGeneration eval sa.population.currentGeneration = .ok evaluated ∧
      children.length = evaluated.creatures.length ∧
      sa'.population = sa.population.commit evaluated ⟨children⟩ := by
  simp only [SimulatedAnnealing.generation_single, bind, Except.bind] at h
  cases h1 : evaluateGeneration eval sa.population.currentGeneration with
  | error e => rw [h1] at h; simp at h
  | ok ev =>
    rw [h1] at h
    simp only [] at h
    cases h2 : saChildren eval sa.population.gen ev.creatures r with
    | error e => rw [h2] at h; simp at h
    | ok pr =>
      obtain ⟨ch, r2⟩ := pr
      rw [h2] at h
      simp only [] at h
      by_cases hlen : ch.length = ev.creatures.length
      · rw [if_pos hlen] at h
        simp at h
        obtain ⟨hsa, _⟩ := h
        exact ⟨ev, ch, rfl, hlen, by rw [← hsa]⟩
      · rw [if_neg hlen] at h
        simp at h

theorem optmethod_ok_shape (eval : EvalFn) (m m' : OptMethod) (r r' : StdRng)
    (h : m.generation_single eval r = .ok (m', r')) :
    ∃ evaluated children,
      evaluateGeneration eval m.get_data.currentGeneration = .ok evaluated ∧
      children.length = evaluated.creatures.length ∧
      m'.get_data = m.get_data.commit evaluated ⟨children⟩ := by
  cases m with
  | ga g =>
    simp only [OptMethod.generation_single, Except.map] at h
    cases h1 : g.generation_single eval r with
    | error e => rw [h1] at h; simp at h
    | ok pr =>
      rw [h1] at h
      simp at h
      obtain ⟨hm, hr⟩ := h
      obtain ⟨ev, ch, ha, hb, hg⟩ := ga_generation_single_ok eval g pr.1 r pr.2 (by rw [h1])
      exact ⟨ev, ch, ha, hb, by rw [← hm]; exact hg⟩
  | hc g =>
    simp only [OptMethod.generation_single, Except.map] at h
    cases h1 : g.generation_single eval r with
    | error e => rw [h1] at h; simp at h
    | ok pr =>
      rw [h1] at h
      simp at h
      obtain ⟨hm, hr⟩ := h
      obtain ⟨ev, ch, ha, _, hb, hg⟩ := hc_generation_single_ok eval g pr.1 r pr.2 (by rw [h1])
      exact ⟨ev, ch, ha, hb, by rw [← hm]; exact hg⟩
  | sa g =>
    simp only [OptMethod.generation_single, Except.map] at h
    cases h1 : g.generation_single eval r with
    | error e => rw [h1] at h; simp at h
    | ok pr =>
      rw [h1] at h
      simp at h
      obtain ⟨hm, hr⟩ := h
      obtain ⟨ev, ch, ha, hb, hg⟩ := sa_generation_single_ok eval g pr.1 r pr.2 (by rw [h1])
      exact ⟨ev, ch, ha, hb, by rw [← hm]; exact hg⟩

theorem commit_gen_len (p : Population) (ev ng : Generation) :
    (p.commit ev ng).gen = p.gen + 1 ∧
    (p.commit ev ng).generations.length = p.generations.length - 1 + 2 := by
  simp [Population.commit]

theorem pop_new_shape (size : Nat) (r0 : StdRng) (p : Population) (r1 : StdRng)
    (h : Population.new size r0 = .ok (p, r1)) :
    p.generations.length = p.gen + 1 := by
  simp only [Population.new] at h
  by_cases hs : size = 0
  · rw [if_pos hs] at h; simp at h
  · rw [if_neg hs] at h
    cases hn : newCreatures size r0 with
    | mk cs r2 =>
      rw [hn] at h
      simp at h
      obtain ⟨hp, _⟩ := h
      rw [← hp]
      rfl

theorem generation_single_gen_len (eval : EvalFn) (m m' : OptMethod) (r r' : StdRng)
    (h : m.generation_single eval r = .ok (m', r')) :
    m'.get_data.gen = m.get_data.gen + 1 ∧
    (m.get_data.generations.length = m.get_data.gen + 1 →
      m'.get_data.generations.length = m'.get_data.gen + 1) := by
  obtain ⟨ev, ch, _, _, hshape⟩ := optmethod_ok_shape eval m m' r r' h
  constructor
  · rw [hshape]; simp [Population.commit]
  · intro hlen
    rw [hshape]
    simp [Population.commit]
    omega

/-- C1 (size conservation): for every strategy, a successful generation
transition appends a generation with exactly as many creatures as the
generation it was produced from, and a uniform generation size
(`generation_size`) is preserved across the whole history. -/
theorem C1_size_conservation (eval : EvalFn) (m m' : OptMethod) (r r' : StdRng)
    (h : m.generation_single eval r = .ok (m', r')) :
    m'.get_data.currentGeneration.creatures.length
      = m.get_data.currentGeneration.creatures.length ∧
    ∀ s : Nat, m.get_data.generations ≠ [] →
      (∀ g ∈ m.get_data.generations, g.creatures.length = s) →
      ∀ g ∈ m'.get_data.generations, g.creatures.length = s := by
  obtain ⟨ev, ch, ha, hb, hshape⟩ := optmethod_ok_shape eval m m' r r' h
  have hevlen := evaluateGeneration_length eval _ _ ha
  constructor
  · rw [hshape]
    simp only [Population.commit, Population.currentGeneration, getLastD_append_pair]
    rw [hb, hevlen]
    rfl
  · intro s hne hall g hg
    rw [hshape] at hg
    simp only [Population.commit] at hg
    have hcur : m.get_data.currentGeneration.creatures.length = s := by
      exact hall _ (mem_of_getLastD _ _ hne)
    rcases List.mem_append.mp hg with hg | hg
    · exact hall g (List.Sublist.mem hg (List.dropLast_sublist _))
    · rcases List.mem_cons.mp hg with hg | hg
      · rw [hg, hevlen]; exact hcur
      · rcases List.mem_cons.mp hg with hg | hg
        · rw [hg]; show ch.length = s; rw [hb, hevlen]; exact hcur
        · simp at hg

/-- C2 (history monotonic growth): after `n` successful advances the `gen`
counter grows by exactly `n`, the invariant `generations.length = gen + 1`
is preserved by every successful advance, and it holds right after
construction of a Population. -/
theorem C2_history_growth (eval : EvalFn) :
    ∀ (n : Nat) (m m' : OptMethod) (r r' : StdRng),
      OptMethod.advanceN eval n m r = some (m', r') →
      m'.get_data.gen = m.get_data.gen + n ∧
      (m.get_data.generations.length = m.get_data.gen + 1 →
        m'.get_data.generations.length = m'.get_data.gen + 1) ∧
      (∀ (size : Nat) (r0 : StdRng) (p : Population) (r1 : StdRng),
        Population.new size r0 = .ok (p, r1) → p.generations.length = p.gen + 1) := by
  intro n
  induction n with
  | zero =>
    intro m m' r r' h
    simp [OptMethod.advanceN] at h
    obtain ⟨hm, _⟩ := h
    subst hm
    exact ⟨rfl, fun hl => hl, fun size r0 p r1 hp => pop_new_shape size r0 p r1 hp⟩
  | succ n ih =>
    intro m m' r r' h
    simp only [OptMethod.advanceN] at h
    cases h1 : m.generation_single eval r with
    | error e => rw [h1] at h; simp at h
    | ok pr =>
      rw [h1] at h
      simp only [] at h
      obtain ⟨ih1, ih2, _⟩ := ih pr.1 m' pr.2 r' h
      obtain ⟨s1, s2⟩ := generation_single_gen_len eval m pr.1 r pr.2 (by rw [h1])
      refine ⟨by omega, fun hlen => ih2 (s2 hlen), fun size r0 p r1 hp => pop_new_shape size r0 p r1 hp⟩

/-- C3 (failure atomicity): if a strategy's generation transition fails, the
`gen` counter and the generations list are exactly those from before the
call; no partial generation is appended. -/
theorem C3_failure_atomicity (eval : EvalFn) (m m' : OptMethod) (r r' : StdRng) (e : SimulationError)
    (h : OptMethod.generation_single_mut eval m r = (some e, m', r')) :
    m'.get_data.gen = m.get_data.gen ∧
    m'.get_data.generations = m.get_data.generations := by
  simp only [OptMethod.generation_single_mut] at h
  cases h1 : m.generation_single eval r with
  | ok pr => rw [h1] at h; simp only [] at h; simp at h
  | error e2 =>
    rw [h1] at h
    simp only [] at h
    simp at h
    obtain ⟨_, hm, _⟩ := h
    rw [← hm]
    exact ⟨rfl, rfl⟩

/-- C6 (zero population rejected): constructing a Population with size 0
fails with `InvalidConfiguration` for any generator, never producing an
empty generation. -/
theorem C6_zero_population_rejected (r : StdRng) :
    Population.new 0 r = .error .InvalidConfiguration := by
  simp [Population.new]

/-- C8 (simulated-annealing temperature schedule): the per-generation
temperature is a non-increasing function of `gen`, bounded below by the
positive configured floor for every `gen`, hence never zero. -/
theorem C8_temperature_schedule :
    (∀ g : Nat, tempFloor ≤ saTemperature g ∧ 0 < saTemperature g) ∧
    (∀ g : Nat, saTemperature (g + 1) ≤ saTemperature g) := by
  constructor
  · intro g
    have hfl : (0:ℚ) < tempFloor := by norm_num [tempFloor]
    exact ⟨le_max_left _ _, lt_of_lt_of_le hfl (le_max_left _ _)⟩
  · intro g
    apply max_le_max (le_refl tempFloor)
    apply mul_le_mul_of_nonneg_left _ (by norm_num [tempInit])
    exact pow_le_pow_of_le_one (by norm_num [tempDecay]) (by norm_num [tempDecay]) (Nat.le_succ g)

/-- C7 (no-strategy configuration rejected before work): with all three
strategy flags off, `init_tests` only surfaces the error modal — the
generator is untouched (so no Population was built), nothing is pushed onto
`optmethods`, and `gui_state` and all other simulation state are unchanged. -/
theorem C7_no_strategy_rejected (u : UIData)
    (h1 : u.use_genetic_algorithm = false)
    (h2 : u.use_hill_climbing = false)
    (h3 : u.use_simulated_annealing = false) :
    u.init_tests.optmethods = u.optmethods ∧
    u.init_tests.gui_state = u.gui_state ∧
    u.init_tests.rng = u.rng ∧
    u.init_tests.generation_size = u.generation_size ∧
    u.init_tests.total_generations = u.total_generations ∧
    u.init_tests.spectate_generation = u.spectate_generation ∧
    u.init_tests.spectate_creature = u.spectate_creature ∧
    u.init_tests.draw_simulation = u.draw_simulation ∧
    u.init_tests.current_fitness = u.current_fitness ∧
    u.init_tests.simulation_frame = u.simulation_frame ∧
    u.init_tests.modal_visible = true := by
  simp [UIData.init_tests, UIData.modal_new, h1, h2, h3]

theorem uidata_gen_single_proj (eval : EvalFn) (u : UIData) :
    (u.generation_single eval).optmethods = (stepMethods eval u.optmethods u.rng).1 ∧
    (u.generation_single eval).rng = (stepMethods eval u.optmethods u.rng).2 := by
  cases hstep : stepMethods eval u.optmethods u.rng with
  | mk ms r' => simp [UIData.generation_single, hstep]

/-- C5 (determinism): the fitness sequences a run produces depend only on
the generator state and the strategy states (seed, generation size and
strategy choice at construction); two runs agreeing on those — whatever
their window, mouse, modal or spectate state — produce bit-identical
fitness histories under the same sequence of advance calls. -/
theorem C5_determinism (eval : EvalFn) :
    ∀ (n : Nat) (u1 u2 : UIData),
      u1.rng = u2.rng → u1.optmethods = u2.optmethods →
      (UIData.advanceN eval n u1).fitnessHistory
        = (UIData.advanceN eval n u2).fitnessHistory := by
  intro n
  induction n with
  | zero =>
    intro u1 u2 hr hm
    simp [UIData.advanceN, UIData.fitnessHistory, hm]
  | succ n ih =>
    intro u1 u2 hr hm
    simp only [UIData.advanceN]
    apply ih
    · obtain ⟨_, h2⟩ := uidata_gen_single_proj eval u1
      obtain ⟨_, h2'⟩ := uidata_gen_single_proj eval u2
      rw [h2, h2', hr, hm]
    · obtain ⟨h1, _⟩ := uidata_gen_single_proj eval u1
      obtain ⟨h1', _⟩ := uidata_gen_single_proj eval u2
      rw [h1, h1', hr, hm]

/-- C9 (spectate index bound): the creature index drawn by
`set_creature_random` lies in `[0, generation_size)`, and is therefore a
valid index into the creatures of every generation in the history of every
strategy — generation 0 included — whenever the generations hold
`generation_size` creatures. -/
theorem C9_spectate_index_bound (u : UIData)
    (hpos : 0 < u.generation_size)
    (hwf : ∀ m ∈ u.optmethods, ∀ g ∈ m.get_data.generations,
      g.creatures.length = u.generation_size) :
    u.set_creature_random.spectate_creature < u.generation_size ∧
    ∀ m ∈ u.optmethods, ∀ g ∈ m.get_data.generations,
      u.set_creature_random.spectate_creature < g.creatures.length := by
  have hidx : u.set_creature_random.spectate_creature
      = (u.rng.gen_range 0 u.generation_size).1 := by
    rfl
  have hbound : (u.rng.gen_range 0 u.generation_size).1 < u.generation_size := by
    simp [StdRng.gen_range, StdRng.nextNat]
    exact Nat.mod_lt _ hpos
  constructor
  · rw [hidx]; exact hbound
  · intro m hm g hg
    rw [hwf m hm g hg, hidx]
    exact hbound

theorem getD_dropLast {α : Type} (l : List α) (k : Nat) (d : α) (h : k < l.dropLast.length) :
    l.dropLast.getD k d = l.getD k d := by
  have hne : l ≠ [] := by
    intro he; rw [he] at h; simp at h
  conv_rhs => rw [← dropLast_append_getLastD l hne d]
  rw [getD_append_left _ _ _ _ h]

theorem getLastD_eq_getD {α : Type} (l : List α) (d : α) (h : l ≠ []) :
    l.getLastD d = l.getD (l.length - 1) d := by
  conv_rhs => rw [← dropLast_append_getLastD l h d]
  rw [getD_append_right _ _ _ _ (by simp [List.length_dropLast])]
  simp [List.length_dropLast]

/-- Every creature of a generation already carries a fitness score. -/
def ScoredGen (g : Generation) : Prop :=
  ∀ c ∈ g.creatures, c.scored = true

/-- Every generation of the history holds exactly `s` creatures. -/
def sizeUniform (p : Population) (s : Nat) : Prop :=
  ∀ g ∈ p.generations, g.creatures.length = s

/-- Per-lineage fitness never decreases from one generation of the history
to the next. -/
def MonoHistory (p : Population) : Prop :=
  ∀ k, k + 1 < p.generations.length →
    ∀ i : Nat, fitnessAt p k i ≤ fitnessAt p (k + 1) i

/-- Invariant carried along a hill-climbing run: a nonempty history of
uniform generation size, pointwise monotone fitness, and a fully scored
newest generation (except possibly right after construction). -/
def HCInv (p : Population) (s : Nat) : Prop :=
  p.generations ≠ [] ∧ sizeUniform p s ∧ MonoHistory p ∧
    (ScoredGen p.currentGeneration ∨ p.generations.length = 1)

theorem hc_step_inv (eval : EvalFn) (hc hc' : HillClimbing) (r r' : StdRng) (s : Nat)
    (h : hc.generation_single eval r = .ok (hc', r'))
    (hinv : HCInv hc.population s) :
    HCInv hc'.population s := by
  obtain ⟨hne, huni, hmono, hlast⟩ := hinv
  obtain ⟨ev, ch, hev, hchild, hlen, hshape⟩ := hc_generation_single_ok eval hc hc' r r' h
  have hlen_ev := evaluateGeneration_length eval _ _ hev
  obtain ⟨hch_len, hch_fit, hch_sc⟩ := hcChildren_ok eval ev.creatures r ch r' hchild
  have hcur_mem := mem_of_getLastD hc.population.generations (⟨[]⟩ : Generation) hne
  have hcur_len : hc.population.currentGeneration.creatures.length = s :=
    huni _ hcur_mem
  have hev_len_s : ev.creatures.length = s := by rw [hlen_ev]; exact hcur_len
  have hch_len_s : ch.length = s := by rw [hlen]; exact hev_len_s
  have hev_scored := evaluateGeneration_scored eval _ _ hev
  have hL : hc.population.generations.dropLast.length
      = hc.population.generations.length - 1 := List.length_dropLast _
  have hlen_pos : 1 ≤ hc.population.generations.length :=
    List.length_pos.mpr hne
  refine ⟨?_, ?_, ?_, ?_⟩
  · rw [hshape]; simp [Population.commit]
  · intro g hg
    rw [hshape] at hg
    simp only [Population.commit] at hg
    rcases List.mem_append.mp hg with hg | hg
    · exact huni g (List.Sublist.mem hg (List.dropLast_sublist _))
    · rcases List.mem_cons.mp hg with hg | hg
      · rw [hg]; exact hev_len_s
      · rcases List.mem_cons.mp hg with hg | hg
        · rw [hg]; exact hch_len_s
        · simp at hg
  · intro k hk i
    rw [hshape] at hk ⊢
    simp only [Population.commit, fitnessAt, List.length_append, List.length_cons,
      List.length_nil] at hk ⊢
    by_cases hA : k + 1 < hc.population.generations.dropLast.length
    · rw [getD_append_left _ _ _ _ (by omega), getD_append_left _ _ _ _ hA,
        getD_dropLast _ _ _ (by omega), getD_dropLast _ _ _ hA]
      exact hmono k (by omega) i
    · by_cases hB : k + 1 = hc.population.generations.dropLast.length
      · have hlen2 : 2 ≤ hc.population.generations.length := by omega
        have hscored : ScoredGen hc.population.currentGeneration := by
          rcases hlast with hs | hs
          · exact hs
          · omega
        have hevcur : ev = hc.population.currentGeneration :=
          Except.ok.inj (hev.symm.trans (evaluateGeneration_of_scored eval _ hscored))
        rw [getD_append_left _ _ _ _ (by omega), getD_dropLast _ _ _ (by omega),
          getD_append_right _ _ _ _ (by omega), hB]
        simp only [Nat.sub_self, List.getD]
        have hgoal := hmono k (by omega) i
        simp only [fitnessAt] at hgoal
        have hcur_eq : hc.population.generations.getD (k + 1) ⟨[]⟩
            = hc.population.currentGeneration := by
          rw [Population.currentGeneration, getLastD_eq_getD _ _ hne]
          congr 1
          omega
        rw [hcur_eq] at hgoal
        simpa [hevcur] using hgoal
      · have hC : k = hc.population.generations.dropLast.length := by omega
        rw [getD_append_right _ _ _ _ (by omega), getD_append_right _ _ _ _ (by omega),
          hC]
        simp only [Nat.sub_self, Nat.add_sub_cancel_left]
        simpa [List.getD] using hch_fit i
  · left
    rw [hshape]
    simp only [Population.commit, Population.currentGeneration, getLastD_append_pair]
    exact hch_sc hev_scored

theorem hcAdvanceN_inv (eval : EvalFn) :
    ∀ (n : Nat) (hc hc' : HillClimbing) (r r' : StdRng) (s : Nat),
      HCInv hc.population s →
      hcAdvanceN eval n hc r = some (hc', r') →
      HCInv hc'.population s := by
  intro n
  induction n with
  | zero =>
    intro hc hc' r r' s hinv h
    simp [hcAdvanceN] at h
    obtain ⟨hm, _⟩ := h
    rw [← hm]
    exact hinv
  | succ n ih =>
    intro hc hc' r r' s hinv h
    simp only [hcAdvanceN] at h
    cases h1 : hc.generation_single eval r with
    | error e => rw [h1] at h; simp at h
    | ok pr =>
      rw [h1] at h
      simp only [] at h
      exact ih pr.1 hc' pr.2 r' s (hc_step_inv eval hc pr.1 r pr.2 s (by rw [h1]) hinv) h

/-- C4 (hill-climbing monotonicity): under the strict-improvement accept
rule, along any run of successful hill-climbing advances from a freshly
constructed population, the fitness recorded for every creature lineage
never decreases from one generation of the history to the next. -/
theorem C4_hill_climbing_monotonic (eval : EvalFn) (n : Nat)
    (hc hcN : HillClimbing) (r rN : StdRng)
    (hfresh : hc.population.generations.length = 1)
    (hrun : hcAdvanceN eval n hc r = some (hcN, rN)) :
    ∀ k i : Nat, k + 1 < hcN.population.generations.length →
      fitnessAt hcN.population k i ≤ fitnessAt hcN.population (k + 1) i := by
  intro k i hk
  obtain ⟨g0, hg0⟩ := List.length_eq_one.mp hfresh
  have hinv0 : HCInv hc.population g0.creatures.length := by
    refine ⟨by rw [hg0]; simp, ?_, ?_, Or.inr hfresh⟩
    · intro g hg
      rw [hg0] at hg
      simp at hg
      rw [hg]
    · intro k2 hk2 i2
      rw [hfresh] at hk2
      omega
  have hinvN := hcAdvanceN_inv eval n hc hcN r rN g0.creatures.length hinv0 hrun
  exact hinvN.2.2.1 k hk i

/-- C10 (amended): every call to `UIData.generation_single` — whether the
strategies' advances succeed or fail — increments `spectate_generation` and
`total_generations` by exactly one and sets `simulation_frame` to 0, and
modifies no `UIData` field other than the strategies' populations
(`optmethods`) and the random generator `rng` it threads through them. -/
theorem C10_generation_single_effects (eval : EvalFn) (u : UIData) :
    (u.generation_single eval).spectate_generation = u.spectate_generation + 1 ∧
    (u.generation_single eval).total_generations = u.total_generations + 1 ∧
    (u.generation_single eval).simulation_frame = 0 ∧
    (u.generation_single eval).mouse_x = u.mouse_x ∧
    (u.generation_single eval).mouse_y = u.mouse_y ∧
    (u.generation_single eval).mouse_left_down = u.mouse_left_down ∧
    (u.generation_single eval).mouse_right_down = u.mouse_right_down ∧
    (u.generation_single eval).width = u.width ∧
    (u.generation_single eval).height = u.height ∧
    (u.generation_single eval).fps = u.fps ∧
    (u.generation_single eval).title = u.title ∧
    (u.generation_single eval).gui_state = u.gui_state ∧
    (u.generation_single eval).generation_size = u.generation_size ∧
    (u.generation_single eval).use_genetic_algorithm = u.use_genetic_algorithm ∧
    (u.generation_single eval).use_simulated_annealing = u.use_simulated_annealing ∧
    (u.generation_single eval).use_hill_climbing = u.use_hill_climbing ∧
    (u.generation_single eval).spectate_method = u.spectate_method ∧
    (u.generation_single eval).spectate_creature = u.spectate_creature ∧
    (u.generation_single eval).draw_simulation = u.draw_simulation ∧
    (u.generation_single eval).current_fitness = u.current_fitness ∧
    (u.generation_single eval).modal_visible = u.modal_visible ∧
    (u.generation_single eval).modal_struct = u.modal_struct := by
  cases hstep : stepMethods eval u.optmethods u.rng with
  | mk ms r' => simp [UIData.generation_single, hstep]

/-- A concrete evaluation capability for witnesses: every trial scores 1. -/
def wEval : EvalFn := fun _ => some 1

/-- A concrete always-failing evaluation capability for witnesses. -/
def wFailEval : EvalFn := fun _ => none

def wCreature : Creature := ⟨[0], 0, false, 0⟩

def wPop : Population := ⟨[⟨[wCreature]⟩], 0⟩

def wHC : HillClimbing := ⟨wPop⟩

def wR : StdRng := ⟨1, 0⟩

/-- A concrete `UIData` state running one hill-climbing strategy. -/
def wUI : UIData :=
  { mouse_x := 0, mouse_y := 0, mouse_left_down := false, mouse_right_down := false,
    width := 640, height := 480, fps := 60, title := "",
    gui_state := GUIState.Menu, rng := wR, generation_size := 1,
    use_genetic_algorithm := false, use_simulated_annealing := false,
    use_hill_climbing := true, total_generations := 0,
    spectate_method := 0, spectate_generation := 0, spectate_creature := 0,
    draw_simulation := false, simulation_frame := 0, current_fitness := 0,
    optmethods := [.hc wHC], modal_visible := false, modal_struct := none }

/-- C10 counterexample: on a concrete state, `generation_single` modifies
the `rng` field — a `UIData` field outside the strategies' populations — so
the claim that no other field is modified fails as stated. -/
theorem C10_rng_modified : (wUI.generation_single wEval).rng ≠ wUI.rng := by decide

def w1Res : OptMethod × StdRng :=
  ((OptMethod.hc wHC).generation_single wEval wR).toOption.getD default

/-- Witness for C1: a concrete successful hill-climbing advance conserving
the creature count. -/
theorem C1_witness :
    (OptMethod.hc wHC).generation_single wEval wR = .ok w1Res ∧
    w1Res.1.get_data.currentGeneration.creatures.length
      = (OptMethod.hc wHC).get_data.currentGeneration.creatures.length :=
  ⟨by decide,
   (C1_size_conservation wEval (.hc wHC) w1Res.1 wR w1Res.2 (by decide)).1⟩

def w2Res : OptMethod × StdRng :=
  (OptMethod.advanceN wEval 2 (.hc wHC) wR).getD default

/-- Witness for C2: two concrete successful advances grow `gen` by two and
keep `generations.length = gen + 1`. -/
theorem C2_witness :
    OptMethod.advanceN wEval 2 (.hc wHC) wR = some w2Res ∧
    w2Res.1.get_data.gen = (OptMethod.hc wHC).get_data.gen + 2 ∧
    w2Res.1.get_data.generations.length = w2Res.1.get_data.gen + 1 :=
  ⟨by decide,
   (C2_history_growth wEval 2 (.hc wHC) w2Res.1 wR w2Res.2 (by decide)).1,
   (C2_history_growth wEval 2 (.hc wHC) w2Res.1 wR w2Res.2 (by decide)).2.1 (by decide)⟩

/-- Witness for C3: a concrete failing advance (the trial always fails)
leaves the history exactly unchanged. -/
theorem C3_witness :
    OptMethod.generation_single_mut wFailEval (.hc wHC) wR
      = (some SimulationError.EvaluationFailure, .hc wHC, wR) ∧
    (OptMethod.hc wHC).get_data.generations.length = 1 ∧
    (OptMethod.hc wHC).get_data.generations
      = (OptMethod.hc wHC).get_data.generations :=
  ⟨by decide, by decide,
   (C3_failure_atomicity wFailEval (.hc wHC) (.hc wHC) wR wR
      SimulationError.EvaluationFailure (by decide)).2⟩

def w4Res : HillClimbing × StdRng := (hcAdvanceN wEval 2 wHC wR).getD default

/-- Witness for C4: a concrete two-advance hill-climbing run with monotone
lineage fitness between generations 0 and 1. -/
theorem C4_witness :
    wHC.population.generations.length = 1 ∧
    hcAdvanceN wEval 2 wHC wR = some w4Res ∧
    0 + 1 < w4Res.1.population.generations.length ∧
    fitnessAt w4Res.1.population 0 0 ≤ fitnessAt w4Res.1.population (0 + 1) 0 :=
  ⟨by decide, by decide, by decide,
   C4_hill_climbing_monotonic wEval 2 wHC w4Res.1 wR w4Res.2 (by decide) (by decide)
     0 0 (by decide)⟩

def wUIother : UIData := { wUI with mouse_x := 5, width := 800 }

/-- Witness for C5: two concrete states agreeing on generator and strategies
but differing in window and mouse state produce the same fitness history. -/
theorem C5_witness :
    wUI.rng = wUIother.rng ∧
    wUI.optmethods = wUIother.optmethods ∧
    (UIData.advanceN wEval 1 wUI).fitnessHistory
      = (UIData.advanceN wEval 1 wUIother).fitnessHistory :=
  ⟨rfl, rfl, C5_determinism wEval 1 wUI wUIother rfl rfl⟩

def wUInoStrategy : UIData := { wUI with use_hill_climbing := false }

/-- Witness for C7: with all strategy flags off on a concrete state,
`init_tests` leaves the generator untouched. -/
theorem C7_witness :
    wUInoStrategy.use_genetic_algorithm = false ∧
    wUInoStrategy.use_hill_climbing = false ∧
    wUInoStrategy.use_simulated_annealing = false ∧
    wUInoStrategy.init_tests.rng = wUInoStrategy.rng :=
  ⟨rfl, rfl, rfl, (C7_no_strategy_rejected wUInoStrategy rfl rfl rfl).2.2.1⟩

/-- Witness for C9: on a concrete well-formed state the drawn spectate index
is in bounds. -/
theorem C9_witness :
    0 < wUI.generation_size ∧
    (∀ m ∈ wUI.optmethods, ∀ g ∈ m.get_data.generations,
      g.creatures.length = wUI.generation_size) ∧
    wUI.set_creature_random.spectate_creature < wUI.generation_size :=
  ⟨by decide, by decide,
   (C9_spectate_index_bound wUI (by decide) (by decide)).1⟩
